import Mathlib

/-
Verification of the after-you poem generator.

The development shallowly embeds the repository's own logic:
  src/poem_writer.py : find_matching_pos_word, the word-sequence loop of
    generate_poem, format_output_poem, and the poem_structure computation;
  src/table_maker.py : make_table and construct_poem_interactive.

POS tagging (spacy) is an external collaborator: tagged corpora and tagged
template poems are inputs of type List (String × String) (surface form, tag),
and the plain token stream used by the anchor locator is a List String.
Python text is modelled as List Char; str.split() and str.splitlines() are
modelled for the ASCII whitespace/newline characters.
-/

/-- Whitespace test used by the model of Python str.split(): the six ASCII
whitespace characters (space, tab, newline, carriage return, vertical tab,
form feed). -/
def isPyWS (c : Char) : Bool :=
  c == ' ' || c == '\t' || c == '\n' || c == '\r' ||
    c == Char.ofNat 11 || c == Char.ofNat 12

/-- Accumulator pass behind pySplit: walks the text keeping the current
partially read word; whitespace closes the word (empty chunks are dropped,
as Python str.split() with no argument does). -/
def pySplitAux (ws : Char → Bool) : List Char → List Char → List (List Char)
  | [], acc => if acc.isEmpty then [] else [acc]
  | c :: rest, acc =>
    if ws c then
      if acc.isEmpty then pySplitAux ws rest []
      else acc :: pySplitAux ws rest []
    else pySplitAux ws rest (acc ++ [c])

/-- Model of Python str.split() with no argument: the list of maximal runs
of non-whitespace characters. -/
def pySplit (ws : Char → Bool) (s : List Char) : List (List Char) :=
  pySplitAux ws s []

/-- Model of Python str.splitlines() restricted to the newline character:
a newline terminates a line, and a trailing newline does not create a final
empty line ("ab".splitlines = [ab], "ab\n".splitlines = [ab],
"ab\n\n".splitlines = [ab, empty], "".splitlines = []). -/
def pySplitlines : List Char → List (List Char)
  | [] => []
  | c :: rest =>
    if c = '\n' then [] :: pySplitlines rest
    else
      match pySplitlines rest with
      | [] => [[c]]
      | l :: ls => (c :: l) :: ls

/-- Word counter with an explicit in-word flag; used to relate pySplit on a
whole text with pySplit applied line by line. -/
def wordCount (ws : Char → Bool) : List Char → Bool → Nat
  | [], _ => 0
  | c :: rest, inWord =>
    if ws c then wordCount ws rest false
    else (if inWord then 0 else 1) + wordCount ws rest true

/-- Scan loop of find_matching_pos_word (src/poem_writer.py lines 39-49):
the Python loop `for i in range(current_pos + 1, total_words + current_pos + 1)`
is modelled by a fuel counter holding the number of remaining loop values,
with i the current loop value.  When the fuel runs out the Python function
returns the sentinel together with the last value i_mod took, which is
(i - 1) % total_words here.  (For an empty corpus the Python code would
raise NameError since i_mod is unbound; every property proved below assumes
a non-empty corpus, matching the claims.) -/
def find_matching_pos_word_go (corpus_words : List (String × String))
    (target_pos_tag : String) (total_words : Nat) : Nat → Nat → String × Nat
  | i, 0 => ("<WORD-NOT-FOUND>", (i - 1) % total_words)
  | i, steps + 1 =>
    if (corpus_words.getD (i % total_words) ("", "")).2 = target_pos_tag then
      ((corpus_words.getD (i % total_words) ("", "")).1, i % total_words)
    else
      find_matching_pos_word_go corpus_words target_pos_tag total_words (i + 1) steps

/-- Model of find_matching_pos_word (src/poem_writer.py lines 30-49): scan
forward from current_pos + 1, wrapping modulo the corpus length, for
exactly one full lap (len(corpus_words) loop iterations). -/
def find_matching_pos_word (corpus_words : List (String × String))
    (current_pos : Nat) (target_pos_tag : String) : String × Nat :=
  find_matching_pos_word_go corpus_words target_pos_tag corpus_words.length
    (current_pos + 1) corpus_words.length

/-- Model of Python str.lower() for the ASCII range: lower-case each
character. -/
def pyLower (s : String) : String :=
  String.mk (s.data.map Char.toLower)

/-- Model of Python int() restricted to an optional leading minus sign
followed by at least one ASCII digit (no surrounding whitespace, no plus
sign, no underscores): none models ValueError. -/
def digitsValGo : List Char → Nat → Option Nat
  | [], acc => some acc
  | c :: rest, acc =>
    if c.isDigit then digitsValGo rest (acc * 10 + (c.toNat - 48)) else none

/-- Parse an integer the way the interactive loop's int() call does. -/
def pyInt (s : String) : Option Int :=
  match s.data with
  | [] => none
  | '-' :: [] => none
  | '-' :: d :: ds => (digitsValGo (d :: ds) 0).map (fun n => -(n : Int))
  | ds => (digitsValGo ds 0).map (fun n => (n : Int))

/-- Index-carrying pass behind extract_anchor_word_positions, mirroring
Python's enumerate. -/
def extract_anchor_word_positions_go (anchor_word : String) :
    List String → Nat → List Nat
  | [], _ => []
  | tok :: rest, i =>
    if pyLower tok = pyLower anchor_word then
      i :: extract_anchor_word_positions_go anchor_word rest (i + 1)
    else
      extract_anchor_word_positions_go anchor_word rest (i + 1)

/-- Model of extract_anchor_word_positions (src/poem_writer.py lines 19-28):
indices of the tokens whose lower-cased surface form (pyLower standing in
for str.lower()) equals the lower-cased anchor word.  The spacy token stream is an input (List String). -/
def extract_anchor_word_positions (corpus_tokens : List String)
    (anchor_word : String) : List Nat :=
  extract_anchor_word_positions_go anchor_word corpus_tokens 0

/-- Failure modes of the word-sequence loop of generate_poem: indexError
models Python's IndexError on anchor_word_positions[cursor], zeroDivError
models ZeroDivisionError on the modulo by len(anchor_word_positions). -/
inductive PoemError where
  | indexError
  | zeroDivError
deriving DecidableEq

/-- Model of the step 4/5 loop of generate_poem (src/poem_writer.py lines
71-90).  Each iteration first reads anchor_word_positions[cursor] (IndexError
when the cursor is out of range, in particular on an empty list), then calls
find_matching_pos_word from that anchor position, appends the matched word
(discarding the returned index), and finally advances the cursor by one
modulo len(anchor_word_positions) (ZeroDivisionError when that length is
zero). -/
def generate_poem_loop (corpus_words : List (String × String))
    (anchor_word_positions : List Nat) :
    List (String × String) → Nat → Except PoemError (List String)
  | [], _ => Except.ok []
  | wt :: rest, cursor =>
    if cursor < anchor_word_positions.length then
      let current_anchor_position := anchor_word_positions.getD cursor 0
      let matching := find_matching_pos_word corpus_words current_anchor_position wt.2
      if anchor_word_positions.length = 0 then Except.error PoemError.zeroDivError
      else
        match generate_poem_loop corpus_words anchor_word_positions rest
            ((cursor + 1) % anchor_word_positions.length) with
        | Except.ok word_sequence => Except.ok (matching.1 :: word_sequence)
        | Except.error e => Except.error e
    else Except.error PoemError.indexError

/-- Model of the poem_structure computation of generate_poem
(src/poem_writer.py line 93): the whitespace word count of each line of the
template poem. -/
def poem_structure (input_poem : List Char) : List Nat :=
  (pySplitlines input_poem).map (fun line => (pySplit isPyWS line).length)

/-- Line list built by format_output_poem (src/poem_writer.py lines 98-115):
for each per-line word count, join that many words from the front of the
remaining word sequence.  Python slices clamp at the end of the list, which
List.take and List.drop model exactly. -/
def format_output_poem_lines (word_sequence : List String) :
    List Nat → List String
  | [] => []
  | words_in_line :: rest =>
    String.intercalate " " (word_sequence.take words_in_line) ::
      format_output_poem_lines (word_sequence.drop words_in_line) rest

/-- Model of format_output_poem (src/poem_writer.py lines 98-115). -/
def format_output_poem (word_sequence : List String)
    (shape : List Nat) : String :=
  String.intercalate "\n" (format_output_poem_lines word_sequence shape)

/-- Model of generate_poem (src/poem_writer.py lines 51-96) downstream of the
external tagger: the tagged corpus, the anchor position list and the tagged
template poem are inputs, and the raw template text drives poem_structure. -/
def generate_poem (corpus_words : List (String × String))
    (anchor_word_positions : List Nat) (tagged_poem : List (String × String))
    (input_poem : List Char) : Except PoemError String :=
  match generate_poem_loop corpus_words anchor_word_positions tagged_poem 0 with
  | Except.error e => Except.error e
  | Except.ok word_sequence =>
    Except.ok (format_output_poem word_sequence (poem_structure input_poem))

/-- Specification-side description of the round-robin property (spec section
4.3 step 5 and section 8): the word generated for the i-th template token is
the result of a fresh search started at the original anchor occurrence at
list index i mod K, and the index returned by the matcher is not used. -/
def round_robin_spec (corpus_words : List (String × String))
    (anchor_word_positions : List Nat) :
    List (String × String) → Nat → List String
  | [], _ => []
  | wt :: rest, i =>
    (find_matching_pos_word corpus_words
        (anchor_word_positions.getD (i % anchor_word_positions.length) 0)
        wt.2).1 ::
      round_robin_spec corpus_words anchor_word_positions rest (i + 1)

/-- Model of make_table (src/table_maker.py lines 75-93): split the input
text into words, and for each anchor index emit the slice
words[index : index + words_per_row + 1] provided
index + words_per_row <= len(words); other indices contribute no row. -/
def make_table (input_text : List Char) (index_list : List Nat)
    (words_per_row : Nat) : List (List (List Char)) :=
  let words := pySplit isPyWS input_text
  index_list.foldr
    (fun index table_data =>
      if index + words_per_row ≤ words.length then
        ((words.drop index).take (words_per_row + 1)) :: table_data
      else table_data)
    []

/-- Outcome of one row's inner input loop in construct_poem_interactive. -/
inductive RowAction where
  | chose : String → RowAction
  | newline
  | endPoem
deriving DecidableEq

/-- Model of the inner while loop of construct_poem_interactive
(src/table_maker.py lines 38-56) over a scripted input list: "n" and "x"
(lower-cased) are recognised first; otherwise the input is parsed as an
integer (pyInt standing in for Python int()) and accepted when
0 <= k < len(row), choosing row[k]; invalid input retries on the next
scripted entry.  An exhausted script models EOF on input() and yields none. -/
def choose_word_loop (row : List String) :
    List String → Option (RowAction × List String)
  | [] => none
  | inp :: rest =>
    if pyLower inp = "n" then some (RowAction.newline, rest)
    else if pyLower inp = "x" then some (RowAction.endPoem, rest)
    else
      match pyInt inp with
      | some k =>
        if 0 ≤ k ∧ k < (row.length : Int) then
          some (RowAction.chose (row.getD k.toNat ""), rest)
        else choose_word_loop row rest
      | none => choose_word_loop row rest

/-- Model of the row loop of construct_poem_interactive (src/table_maker.py
lines 25-66).  Each row consumes inputs until one is accepted: a chosen word
extends the current line and moves to the next row; "n" flushes the current
line into the poem, resets it, and moves to the next row; "x" flushes, and
the subsequent `if end_poem: break` plus the unconditional final
poem.append adds one further empty line and stops, leaving remaining rows
and inputs unconsumed.  When the rows run out the final poem.append flushes
the current line.  The result pairs the poem lines with the unconsumed
inputs; none models EOF. -/
def construct_poem_go : List (List String) → List String → List String →
    List String → Option (List String × List String)
  | [], inputs, current_line, poem =>
    some (poem ++ [String.intercalate " " current_line], inputs)
  | row :: rows, inputs, current_line, poem =>
    match choose_word_loop row inputs with
    | none => none
    | some (RowAction.chose w, rest) =>
      construct_poem_go rows rest (current_line ++ [w]) poem
    | some (RowAction.newline, rest) =>
      construct_poem_go rows rest []
        (poem ++ [String.intercalate " " current_line])
    | some (RowAction.endPoem, rest) =>
      some (poem ++ [String.intercalate " " current_line, ""], rest)

/-- Model of construct_poem_interactive (src/table_maker.py lines 25-66)
run against a scripted input list, starting with an empty current line and
an empty poem. -/
def construct_poem_interactive (table_data : List (List String))
    (inputs : List String) : Option (List String × List String) :=
  construct_poem_go table_data inputs [] []

/-! Helper lemmas. -/

/-- Anchor extraction finds nothing when no token lower-cases to the anchor
word, whatever the running index is. -/
lemma extract_anchor_word_positions_go_nil (anchor : String) :
    ∀ (toks : List String) (i : Nat),
      (∀ tok ∈ toks, pyLower tok ≠ pyLower anchor) →
      extract_anchor_word_positions_go anchor toks i = [] := by
  intro toks
  induction toks with
  | nil => intro i _; rfl
  | cons t rest ih =>
    intro i h
    have ht : ¬ pyLower t = pyLower anchor := h t (by simp)
    simp only [extract_anchor_word_positions_go, if_neg ht]
    exact ih (i + 1) (fun tok htok => h tok (by simp [htok]))

/-- The zero-division branch of the word-sequence loop is unreachable: the
anchor list is indexed before the modulo is taken, so an empty anchor list
already fails with indexError. -/
lemma generate_poem_loop_ne_zeroDiv (corpus_words : List (String × String)) :
    ∀ (tagged_poem : List (String × String)) (anchors : List Nat) (cursor : Nat),
      generate_poem_loop corpus_words anchors tagged_poem cursor ≠
        Except.error PoemError.zeroDivError := by
  intro tp
  induction tp with
  | nil =>
    intro anchors cursor h
    simp [generate_poem_loop] at h
  | cons wt rest ih =>
    intro anchors cursor h
    simp only [generate_poem_loop] at h
    by_cases hc : cursor < anchors.length
    · rw [if_pos hc] at h
      have hlen : ¬ anchors.length = 0 := by omega
      rw [if_neg hlen] at h
      cases hrec : generate_poem_loop corpus_words anchors rest
          ((cursor + 1) % anchors.length) with
      | ok ws => rw [hrec] at h; exact Except.noConfusion h
      | error e =>
        rw [hrec] at h
        have he : e = PoemError.zeroDivError := by
          injection h
        exact ih anchors ((cursor + 1) % anchors.length) (he ▸ hrec)
    · rw [if_neg hc] at h
      have : PoemError.indexError = PoemError.zeroDivError := by injection h
      exact PoemError.noConfusion this

/-- Lengths of lines produced by format_output_poem, whatever the word
sequence is. -/
lemma format_output_poem_lines_length (shape : List Nat) :
    ∀ word_sequence : List String,
      (format_output_poem_lines word_sequence shape).length = shape.length := by
  induction shape with
  | nil => intro ws; rfl
  | cons n rest ih => intro ws; simp [format_output_poem_lines, ih]

/-- With no words left every remaining line renders empty. -/
lemma format_output_poem_lines_nil (shape : List Nat) :
    format_output_poem_lines [] shape = List.replicate shape.length "" := by
  induction shape with
  | nil => rfl
  | cons n rest ih =>
    simp [format_output_poem_lines, ih, List.replicate_succ]
    rfl

/-- The table foldr of make_table is a filter followed by a map. -/
lemma make_table_foldr_eq (words : List (List Char)) (k : Nat) :
    ∀ il : List Nat,
      il.foldr
        (fun index table_data =>
          if index + k ≤ words.length then
            ((words.drop index).take (k + 1)) :: table_data
          else table_data)
        [] =
      (il.filter (fun i => decide (i + k ≤ words.length))).map
        (fun i => (words.drop i).take (k + 1)) := by
  intro il
  induction il with
  | nil => rfl
  | cons i rest ih =>
    by_cases h : i + k ≤ words.length <;> simp [h, ih]

/-! Claims about generate_poem's empty-anchor failure (C2), make_table (C3),
format_output_poem (C6) and construct_poem_interactive (C9). -/

/-- C2 counterexample: with the anchor word absent (empty anchor position
list) and a non-empty tagged template, generate_poem fails with the
index-out-of-range error of the first anchor-list access, not with a
division-by-zero error at a modulo computation. -/
theorem generate_poem_empty_anchor_counterexample :
    generate_poem [("a", "X")] [] [("hi", "X")] "hi".toList =
      Except.error PoemError.indexError ∧
    generate_poem [("a", "X")] [] [("hi", "X")] "hi".toList ≠
      Except.error PoemError.zeroDivError := by
  constructor
  · rfl
  · intro h
    have h2 : PoemError.indexError = PoemError.zeroDivError := by
      have h1 : generate_poem [("a", "X")] [] [("hi", "X")] "hi".toList =
          Except.error PoemError.indexError := rfl
      rw [h1] at h
      injection h
    exact PoemError.noConfusion h2

/-- C2 (amended): if the anchor word is absent from the corpus the anchor
position list is empty, and for a non-empty tagged template generate_poem
fails with an index-out-of-range failure at the first anchor-list access,
inside the first iteration of the per-token matching loop; the modulo
computation is never reached, and no run of the loop can ever produce a
division-by-zero failure. -/
theorem generate_poem_missing_anchor (corpus_tokens : List String)
    (anchor : String) (corpus_words : List (String × String))
    (wt : String × String) (rest : List (String × String))
    (poem_text : List Char) (anchors : List Nat)
    (tagged_poem : List (String × String)) (cursor : Nat)
    (habs : ∀ tok ∈ corpus_tokens, pyLower tok ≠ pyLower anchor) :
    extract_anchor_word_positions corpus_tokens anchor = [] ∧
    generate_poem corpus_words (extract_anchor_word_positions corpus_tokens anchor)
      (wt :: rest) poem_text = Except.error PoemError.indexError ∧
    generate_poem_loop corpus_words anchors tagged_poem cursor ≠
      Except.error PoemError.zeroDivError := by
  have h1 : extract_anchor_word_positions corpus_tokens anchor = [] :=
    extract_anchor_word_positions_go_nil anchor corpus_tokens 0 habs
  refine ⟨h1, ?_, generate_poem_loop_ne_zeroDiv corpus_words tagged_poem anchors cursor⟩
  rw [h1]
  rfl

/-- C2 witness: a concrete corpus without the anchor word "you". -/
theorem generate_poem_missing_anchor_witness :
    extract_anchor_word_positions ["i", "love", "cats"] "you" = [] ∧
    generate_poem [("love", "VERB")]
      (extract_anchor_word_positions ["i", "love", "cats"] "you")
      (("hello", "INTJ") :: []) "hello".toList = Except.error PoemError.indexError ∧
    generate_poem_loop [("love", "VERB")] [3] [("a", "N")] 0 ≠
      Except.error PoemError.zeroDivError :=
  generate_poem_missing_anchor ["i", "love", "cats"] "you" [("love", "VERB")]
    ("hello", "INTJ") [] "hello".toList [3] [("a", "N")] 0 (by decide)

/-- C3 counterexample: with text "a you b", anchor index 1 and window width
2, the anchor position has only one trailing word (fewer than the window
width), yet make_table emits a row, and that row holds the anchor plus a
single following word rather than the anchor plus two following words. -/
theorem make_table_boundary_counterexample :
    make_table "a you b".toList [1] 2 = [["you".toList, "b".toList]] ∧
    make_table "a you b".toList [1] 2 ≠ [] := by
  constructor
  · rfl
  · decide

/-- C3 (amended): make_table emits a row exactly for the anchor indices i
with i + k <= number of words, the emitted row being the slice
words[i : i + k + 1]; that slice is the anchor plus exactly the next k words
when i + k < number of words, but at the boundary i + k = number of words it
is a short row of the anchor plus only k - 1 following words (min clamps the
slice), and indices with i + k > number of words are silently skipped. -/
theorem make_table_rows (text : List Char) (index_list : List Nat)
    (k i : Nat) :
    make_table text index_list k =
      (index_list.filter
          (fun j => decide (j + k ≤ (pySplit isPyWS text).length))).map
        (fun j => ((pySplit isPyWS text).drop j).take (k + 1)) ∧
    (((pySplit isPyWS text).drop i).take (k + 1)).length =
      min (k + 1) ((pySplit isPyWS text).length - i) := by
  constructor
  · simp only [make_table]
    exact make_table_foldr_eq (pySplit isPyWS text) k index_list
  · simp [List.length_take, List.length_drop]

/-- C6: format_output_poem is total (Python slices never fail): it builds
exactly one output line per line-shape entry whatever the word sequence is,
and once the word sequence is exhausted every remaining line is empty. -/
theorem format_output_poem_one_line_per_shape (word_sequence : List String)
    (shape : List Nat) :
    (format_output_poem_lines word_sequence shape).length = shape.length ∧
    format_output_poem_lines [] shape = List.replicate shape.length "" :=
  ⟨format_output_poem_lines_length shape word_sequence,
    format_output_poem_lines_nil shape⟩

/-- C9 counterexample: over the two rows [you, a, b] and [you, c, d], the
scripted inputs ["1", "n", "2", "x"] produce the poem lines ["a", ""] and
leave ["2", "x"] unconsumed: the input "1" chooses the word at index 1 of
row 0, the input "n" is consumed at row 1's prompt (flushing the line and
advancing past the last row), and "2" and "x" are never read; the second
line "" is not a word of any table row, so the file does not consist of two
chosen-word lines, and the run never stops on an "x" input. -/
theorem construct_poem_scenario_counterexample :
    construct_poem_interactive [["you", "a", "b"], ["you", "c", "d"]]
      ["1", "n", "2", "x"] = some (["a", ""], ["2", "x"]) ∧
    ("" : String) ∉ ["you", "a", "b", "you", "c", "d"] := by
  constructor
  · rfl
  · decide

/-- C9 (amended): each row of construct_poem_interactive accepts exactly one
input; "n" flushes the current line into the poem, resets the line and
advances to the next row; "x" flushes, appends one further empty line
(the unconditional final flush of the reset buffer) and terminates, leaving
the remaining rows and the remaining inputs unconsumed; a numeric input k
with 0 <= k < len(row) appends row[k] to the current line and advances to
the next row.  Consequently, over two rows the script ["1", "n", "2", "x"]
only consumes "1" and "n", and the resulting poem file holds the word chosen
by "1" followed by one empty line. -/
theorem construct_poem_interactive_behavior (row : List String)
    (rows : List (List String)) (current_line poem inputs : List String) :
    construct_poem_go (row :: rows) ("n" :: inputs) current_line poem =
      construct_poem_go rows inputs []
        (poem ++ [String.intercalate " " current_line]) ∧
    construct_poem_go (row :: rows) ("x" :: inputs) current_line poem =
      some (poem ++ [String.intercalate " " current_line, ""], inputs) ∧
    construct_poem_go (["you", "a", "b"] :: rows) ("1" :: inputs)
        current_line poem =
      construct_poem_go rows inputs (current_line ++ ["a"]) poem ∧
    construct_poem_interactive [["you", "a", "b"], ["you", "c", "d"]]
        ["1", "n", "2", "x"] = some (["a", ""], ["2", "x"]) := by
  refine ⟨rfl, rfl, rfl, rfl⟩

/-! String-splitting lemmas used for the line-shape round trip (C7). -/

/-- Word count of a line list: the head line may continue a word already in
progress (flag b); the remaining lines always start outside a word. -/
def linesWordCount (ws : Char → Bool) (b : Bool) : List (List Char) → Nat
  | [] => 0
  | l :: ls => wordCount ws l b + (ls.map (fun l' => wordCount ws l' false)).sum

/-- Number of chunks produced by the splitting pass, expressed through
wordCount. -/
lemma pySplitAux_length (ws : Char → Bool) :
    ∀ (s : List Char) (acc : List Char),
      (pySplitAux ws s acc).length =
        (if acc.isEmpty then 0 else 1) + wordCount ws s !acc.isEmpty := by
  intro s
  induction s with
  | nil =>
    intro acc
    cases acc <;> simp [pySplitAux, wordCount]
  | cons c rest ih =>
    intro acc
    by_cases hc : ws c
    · cases acc with
      | nil => simp [pySplitAux, wordCount, hc, ih]
      | cons a as =>
        simp [pySplitAux, wordCount, hc, ih]
        omega
    · have hne : ((acc ++ [c]).isEmpty) = false := by cases acc <;> rfl
      cases acc with
      | nil => simp [pySplitAux, wordCount, hc, ih, hne]
      | cons a as => simp [pySplitAux, wordCount, hc, ih, hne]

/-- Length of pySplit expressed through wordCount. -/
lemma pySplit_length (ws : Char → Bool) (s : List Char) :
    (pySplit ws s).length = wordCount ws s false := by
  simpa [pySplit] using pySplitAux_length ws s []

/-- Splitting a non-empty text into lines yields at least one line. -/
lemma pySplitlines_ne_nil (c : Char) (rest : List Char) :
    pySplitlines (c :: rest) ≠ [] := by
  simp only [pySplitlines]
  by_cases h : c = '\n'
  · simp [h]
  · rw [if_neg h]
    cases pySplitlines rest <;> simp

/-- With the in-word flag off, linesWordCount is the plain sum of the
per-line word counts. -/
lemma linesWordCount_false (ws : Char → Bool) (L : List (List Char)) :
    linesWordCount ws false L =
      (L.map (fun l => wordCount ws l false)).sum := by
  cases L <;> simp [linesWordCount]

/-- Word counting distributes over the line split, provided the newline
character counts as whitespace. -/
lemma wordCount_pySplitlines (ws : Char → Bool) (hnl : ws '\n' = true) :
    ∀ (s : List Char) (b : Bool),
      linesWordCount ws b (pySplitlines s) = wordCount ws s b := by
  intro s
  induction s with
  | nil => intro b; rfl
  | cons c rest ih =>
    intro b
    by_cases hc : c = '\n'
    · subst hc
      have h0 : linesWordCount ws false (pySplitlines rest) =
          wordCount ws rest false := ih false
      have hsplit : pySplitlines ('\n' :: rest) = [] :: pySplitlines rest := by
        simp [pySplitlines]
      rw [hsplit]
      simp only [linesWordCount, wordCount, hnl, if_true]
      rw [← linesWordCount_false ws (pySplitlines rest), h0]
      omega
    · simp only [pySplitlines, if_neg hc]
      cases hrec : pySplitlines rest with
      | nil =>
        have : rest = [] := by
          cases rest with
          | nil => rfl
          | cons d ds => exact absurd hrec (pySplitlines_ne_nil d ds)
        subst this
        simp [linesWordCount, wordCount]
      | cons l ls =>
        by_cases hw : ws c
        · have h0 := ih false
          rw [hrec] at h0
          simp only [linesWordCount, wordCount, hw, if_true] at h0 ⊢
          exact h0
        · have h1 := ih true
          rw [hrec] at h1
          simp only [linesWordCount, wordCount, hw, if_false, Bool.false_eq_true] at h1 ⊢
          cases b <;> simp <;> omega

/-- C7: the sum of the per-line whitespace word counts computed by
generate_poem's poem_structure equals the whitespace word count of the whole
template text, as a single naive split() would give it. -/
theorem poem_structure_sum (input_poem : List Char) :
    (poem_structure input_poem).sum = (pySplit isPyWS input_poem).length := by
  have hnl : isPyWS '\n' = true := rfl
  have hmap : poem_structure input_poem =
      (pySplitlines input_poem).map (fun line => wordCount isPyWS line false) := by
    simp [poem_structure, pySplit_length]
  have hdist := wordCount_pySplitlines isPyWS hnl input_poem false
  rw [hmap, pySplit_length]
  rw [← hdist]
  cases pySplitlines input_poem with
  | nil => rfl
  | cons l ls => simp [linesWordCount]

/-! Lemmas about the cyclic matcher's scan loop. -/

/-- If the k-th scanned position (counting from the loop's starting value i)
is the first tag match, the scan returns that position's word and wrapped
index. -/
lemma find_matching_pos_word_go_found (cs : List (String × String)) (T : String) :
    ∀ (steps i k : Nat), k < steps →
      (cs.getD ((i + k) % cs.length) ("", "")).2 = T →
      (∀ k', k' < k → (cs.getD ((i + k') % cs.length) ("", "")).2 ≠ T) →
      find_matching_pos_word_go cs T cs.length i steps =
        ((cs.getD ((i + k) % cs.length) ("", "")).1, (i + k) % cs.length) := by
  intro steps
  induction steps with
  | zero => intro i k hk _ _; exact absurd hk (Nat.not_lt_zero k)
  | succ n ih =>
    intro i k hk hmatch hmin
    by_cases h0 : (cs.getD (i % cs.length) ("", "")).2 = T
    · have hk0 : k = 0 := by
        by_contra hne
        exact hmin 0 (Nat.pos_of_ne_zero hne) (by simpa using h0)
      subst hk0
      simp only [find_matching_pos_word_go, if_pos h0]
      simp
    · have hkne : k ≠ 0 := by
        intro h
        subst h
        exact h0 (by simpa using hmatch)
      obtain ⟨m, rfl⟩ : ∃ m, k = m + 1 := ⟨k - 1, by omega⟩
      simp only [find_matching_pos_word_go, if_neg h0]
      have harith : i + 1 + m = i + (m + 1) := by omega
      have h2 : (cs.getD ((i + 1 + m) % cs.length) ("", "")).2 = T := by
        rw [harith]; exact hmatch
      have h3 : ∀ k', k' < m →
          (cs.getD ((i + 1 + k') % cs.length) ("", "")).2 ≠ T := by
        intro k' hk'
        have he : i + 1 + k' = i + (k' + 1) := by omega
        rw [he]
        exact hmin (k' + 1) (by omega)
      rw [ih (i + 1) m (by omega) h2 h3, harith]

/-- If no scanned position matches, the scan exhausts its fuel and returns
the sentinel together with the last wrapped index it visited. -/
lemma find_matching_pos_word_go_not_found (cs : List (String × String)) (T : String) :
    ∀ (steps i : Nat),
      (∀ k, k < steps → (cs.getD ((i + k) % cs.length) ("", "")).2 ≠ T) →
      find_matching_pos_word_go cs T cs.length i steps =
        ("<WORD-NOT-FOUND>", (i + steps - 1) % cs.length) := by
  intro steps
  induction steps with
  | zero => intro i _; rfl
  | succ n ih =>
    intro i h
    have h0 : (cs.getD (i % cs.length) ("", "")).2 ≠ T := by
      simpa using h 0 (Nat.succ_pos n)
    simp only [find_matching_pos_word_go, if_neg h0]
    have h1 : ∀ k, k < n →
        (cs.getD ((i + 1 + k) % cs.length) ("", "")).2 ≠ T := by
      intro k hk
      have he : i + 1 + k = i + (k + 1) := by omega
      rw [he]
      exact h (k + 1) (by omega)
    rw [ih (i + 1) h1]
    have he : i + 1 + n - 1 = i + (n + 1) - 1 := by omega
    rw [he]

/-- Any target index j of the ring can be reached from p + 1 in fewer than N
forward steps. -/
lemma exists_wrap_step (N p j : Nat) (hN : 0 < N) (hj : j < N) :
    ∃ k, k < N ∧ (p + 1 + k) % N = j := by
  have hr : (p + 1) % N < N := Nat.mod_lt _ hN
  refine ⟨(j + N - (p + 1) % N) % N, Nat.mod_lt _ hN, ?_⟩
  rw [Nat.add_mod_mod]
  have hdiv := Nat.div_add_mod (p + 1) N
  have hmul : N * ((p + 1) / N + 1) = N * ((p + 1) / N) + N := by ring
  have h2 : p + 1 + (j + N - (p + 1) % N) = N * ((p + 1) / N + 1) + j := by
    omega
  rw [h2, Nat.mul_add_mod]
  exact Nat.mod_eq_of_lt hj

/-- Wrapped offsets below the modulus are determined by the wrapped index. -/
lemma wrap_inj (N a k k' : Nat) (hk : k < N) (hk' : k' < N)
    (h : (a + k) % N = (a + k') % N) : k = k' := by
  have h1 : a + k ≡ a + k' [MOD N] := h
  have h2 : k ≡ k' [MOD N] := Nat.ModEq.add_left_cancel' a h1
  have h3 : k % N = k' % N := h2
  rw [Nat.mod_eq_of_lt hk, Nat.mod_eq_of_lt hk'] at h3
  exact h3

/-- C1: when the target tag occurs somewhere in the corpus, the matcher
returns the first token, scanning forward from position p + 1 and wrapping
modulo the corpus length, whose tag equals the target, together with that
token's absolute index; the forward distance d of the match from p satisfies
1 <= d <= N, so the returned index lies within one full lap of p. -/
theorem find_matching_pos_word_first_match (cs : List (String × String))
    (p : Nat) (T : String) (hp : p < cs.length)
    (hT : ∃ j, j < cs.length ∧ (cs.getD j ("", "")).2 = T) :
    ∃ d, 1 ≤ d ∧ d ≤ cs.length ∧
      find_matching_pos_word cs p T =
        ((cs.getD ((p + d) % cs.length) ("", "")).1, (p + d) % cs.length) ∧
      (cs.getD ((p + d) % cs.length) ("", "")).2 = T ∧
      ∀ e, 1 ≤ e → e < d → (cs.getD ((p + e) % cs.length) ("", "")).2 ≠ T := by
  obtain ⟨j, hj, hTj⟩ := hT
  have hN : 0 < cs.length := lt_of_le_of_lt (Nat.zero_le p) hp
  obtain ⟨k, hkN, hkj⟩ := exists_wrap_step cs.length p j hN hj
  have hex : ∃ m, (cs.getD ((p + 1 + m) % cs.length) ("", "")).2 = T :=
    ⟨k, by rw [hkj]; exact hTj⟩
  have hk0N : Nat.find hex < cs.length :=
    lt_of_le_of_lt (Nat.find_min' hex (by rw [hkj]; exact hTj)) hkN
  have hspec := Nat.find_spec hex
  have hmin : ∀ k', k' < Nat.find hex →
      (cs.getD ((p + 1 + k') % cs.length) ("", "")).2 ≠ T :=
    fun k' hk' => Nat.find_min hex hk'
  have hgo := find_matching_pos_word_go_found cs T cs.length (p + 1)
      (Nat.find hex) hk0N hspec hmin
  refine ⟨Nat.find hex + 1, by omega, by omega, ?_, ?_, ?_⟩
  · have harith : p + (Nat.find hex + 1) = p + 1 + Nat.find hex := by omega
    rw [harith]
    exact hgo
  · have harith : p + (Nat.find hex + 1) = p + 1 + Nat.find hex := by omega
    rw [harith]
    exact hspec
  · intro e h1 h2
    have harith : p + e = p + 1 + (e - 1) := by omega
    rw [harith]
    exact hmin (e - 1) (by omega)

/-- C1 witness corpus. -/
def corpusC1 : List (String × String) := [("alpha", "X"), ("beta", "Y")]

/-- C1 witness: corpus of two tokens with tags X and Y, start position 0,
target tag Y; the theorem applies and the match is found. -/
theorem find_matching_pos_word_first_match_witness :
    ∃ d, 1 ≤ d ∧ d ≤ corpusC1.length ∧
      find_matching_pos_word corpusC1 0 "Y" =
        ((corpusC1.getD ((0 + d) % corpusC1.length) ("", "")).1,
          (0 + d) % corpusC1.length) ∧
      (corpusC1.getD ((0 + d) % corpusC1.length) ("", "")).2 = "Y" ∧
      ∀ e, 1 ≤ e → e < d →
        (corpusC1.getD ((0 + e) % corpusC1.length) ("", "")).2 ≠ "Y" :=
  find_matching_pos_word_first_match corpusC1 0 "Y" (by decide)
    ⟨1, by decide, by decide⟩

/-- C4: when no token of the corpus carries the target tag, the full lap
finds nothing and the matcher returns the sentinel word, from every start
position. -/
theorem find_matching_pos_word_absent_sentinel (cs : List (String × String))
    (p : Nat) (T : String) (hp : p < cs.length)
    (habs : ∀ j, j < cs.length → (cs.getD j ("", "")).2 ≠ T) :
    (find_matching_pos_word cs p T).1 = "<WORD-NOT-FOUND>" := by
  have hN : 0 < cs.length := lt_of_le_of_lt (Nat.zero_le p) hp
  have h : find_matching_pos_word cs p T =
      ("<WORD-NOT-FOUND>", (p + 1 + cs.length - 1) % cs.length) :=
    find_matching_pos_word_go_not_found cs T cs.length (p + 1)
      (fun k _ => habs ((p + 1 + k) % cs.length) (Nat.mod_lt _ hN))
  rw [h]

/-- C4 witness: a one-token corpus whose tag is not the target. -/
theorem find_matching_pos_word_absent_sentinel_witness :
    (find_matching_pos_word [("a", "X")] 0 "Z").1 = "<WORD-NOT-FOUND>" :=
  find_matching_pos_word_absent_sentinel [("a", "X")] 0 "Z" (by decide)
    (by decide)

/-- C10: on the not-found path the index returned alongside the sentinel is
the start position itself, because the lap's last wrapped index is
(p + N) mod N = p. -/
theorem find_matching_pos_word_absent_index (cs : List (String × String))
    (p : Nat) (T : String) (hp : p < cs.length)
    (habs : ∀ j, j < cs.length → (cs.getD j ("", "")).2 ≠ T) :
    (find_matching_pos_word cs p T).2 = p := by
  have hN : 0 < cs.length := lt_of_le_of_lt (Nat.zero_le p) hp
  have h : find_matching_pos_word cs p T =
      ("<WORD-NOT-FOUND>", (p + 1 + cs.length - 1) % cs.length) :=
    find_matching_pos_word_go_not_found cs T cs.length (p + 1)
      (fun k _ => habs ((p + 1 + k) % cs.length) (Nat.mod_lt _ hN))
  rw [h]
  show (p + 1 + cs.length - 1) % cs.length = p
  have he : p + 1 + cs.length - 1 = p + cs.length := by omega
  rw [he, Nat.add_mod_right]
  exact Nat.mod_eq_of_lt hp

/-- C10 witness: two-token corpus, start position 1, absent tag Q. -/
theorem find_matching_pos_word_absent_index_witness :
    (find_matching_pos_word [("a", "X"), ("b", "X")] 1 "Q").2 = 1 :=
  find_matching_pos_word_absent_index [("a", "X"), ("b", "X")] 1 "Q"
    (by decide) (by decide)

/-- C8: when exactly one token of the corpus carries the target tag, every
search returns that token's word and index, whatever the start position. -/
theorem find_matching_pos_word_unique_tag (cs : List (String × String))
    (p j : Nat) (T : String) (hp : p < cs.length) (hj : j < cs.length)
    (hTj : (cs.getD j ("", "")).2 = T)
    (huniq : ∀ j', j' < cs.length → (cs.getD j' ("", "")).2 = T → j' = j) :
    find_matching_pos_word cs p T = ((cs.getD j ("", "")).1, j) := by
  have hN : 0 < cs.length := lt_of_le_of_lt (Nat.zero_le p) hp
  obtain ⟨k, hkN, hkj⟩ := exists_wrap_step cs.length p j hN hj
  have hmatch : (cs.getD ((p + 1 + k) % cs.length) ("", "")).2 = T := by
    rw [hkj]; exact hTj
  have hmin : ∀ k', k' < k →
      (cs.getD ((p + 1 + k') % cs.length) ("", "")).2 ≠ T := by
    intro k' hk' hT'
    have hm' : (p + 1 + k') % cs.length < cs.length := Nat.mod_lt _ hN
    have hj' : (p + 1 + k') % cs.length = j := huniq _ hm' hT'
    have heq : (p + 1 + k') % cs.length = (p + 1 + k) % cs.length := by
      rw [hj', hkj]
    have : k' = k := wrap_inj cs.length (p + 1) k' k (lt_trans hk' hkN) hkN heq
    omega
  have hgo : find_matching_pos_word cs p T =
      ((cs.getD ((p + 1 + k) % cs.length) ("", "")).1, (p + 1 + k) % cs.length) :=
    find_matching_pos_word_go_found cs T cs.length (p + 1) k hkN hmatch hmin
  rw [hgo, hkj]

/-- C8 witness corpus: tag B occurs exactly once, at index 1. -/
def corpusC8 : List (String × String) := [("x", "A"), ("y", "B"), ("z", "A")]

/-- C8 witness: searching for the unique tag B from start position 2 returns
the token at index 1. -/
theorem find_matching_pos_word_unique_tag_witness :
    find_matching_pos_word corpusC8 2 "B" = ((corpusC8.getD 1 ("", "")).1, 1) :=
  find_matching_pos_word_unique_tag corpusC8 2 1 "B" (by decide) (by decide)
    (by decide) (by decide)

/-! Round-robin property of the word-sequence loop (C5). -/

/-- With a non-empty anchor list, running the loop from cursor i mod K
produces exactly the specification-side round-robin word list started at
token counter i. -/
lemma generate_poem_loop_eq_round_robin (corpus_words : List (String × String))
    (anchors : List Nat) (hA : anchors ≠ []) :
    ∀ (tagged_poem : List (String × String)) (i : Nat),
      generate_poem_loop corpus_words anchors tagged_poem (i % anchors.length) =
        Except.ok (round_robin_spec corpus_words anchors tagged_poem i) := by
  have hK : 0 < anchors.length := List.length_pos.mpr hA
  intro tp
  induction tp with
  | nil => intro i; rfl
  | cons wt rest ih =>
    intro i
    have hc : i % anchors.length < anchors.length := Nat.mod_lt _ hK
    simp only [generate_poem_loop, round_robin_spec, if_pos hc]
    have hlen : ¬ anchors.length = 0 := by omega
    rw [if_neg hlen]
    have hnext : (i % anchors.length + 1) % anchors.length =
        (i + 1) % anchors.length := Nat.mod_add_mod i anchors.length 1
    rw [hnext, ih (i + 1)]

/-- C5: with K >= 1 anchor positions, the word generated for the i-th tagged
template token (0-based) is the result of a fresh matcher search started at
the anchor occurrence at list index i mod K: the loop's cursor visits
0, 1, ..., round robin, and the index returned by each matcher call is
discarded, so no search ever starts from a previous match's position. -/
theorem generate_poem_round_robin (corpus_words : List (String × String))
    (anchor_word_positions : List Nat) (tagged_poem : List (String × String))
    (hA : anchor_word_positions ≠ []) :
    generate_poem_loop corpus_words anchor_word_positions tagged_poem 0 =
      Except.ok (round_robin_spec corpus_words anchor_word_positions tagged_poem 0) := by
  have h := generate_poem_loop_eq_round_robin corpus_words anchor_word_positions
    hA tagged_poem 0
  rwa [Nat.zero_mod] at h

/-- C5 witness corpus, anchors and template. -/
def corpusC5 : List (String × String) := [("w", "N"), ("v", "V")]

/-- C5 witness anchor positions. -/
def anchorsC5 : List Nat := [0, 1]

/-- C5 witness tagged template. -/
def poemC5 : List (String × String) := [("a", "N"), ("b", "V"), ("c", "N")]

/-- C5 witness: three template tokens over two anchor positions. -/
theorem generate_poem_round_robin_witness :
    generate_poem_loop corpusC5 anchorsC5 poemC5 0 =
      Except.ok (round_robin_spec corpusC5 anchorsC5 poemC5 0) :=
  generate_poem_round_robin corpusC5 anchorsC5 poemC5 (by decide)
